import Mathlib

/-!
Shallow embedding of the LCD1602 I2C driver and the weighing logic of
`weighing_machine.py`, together with proofs of the spec's testable
properties.

Modelling conventions:
- A bus interaction is an `Ev`: either a single-byte register write
  (`self.bus.write_byte(self.address, b)`) or a real-time delay
  (`time.sleep(t)`), with delays recorded in nanoseconds.
- Each driver method is embedded as a function from the stored backlight
  byte (the mutable `self.backlight` attribute) to the list of bus events
  it emits.  Python's `IndexError` (raised by `row_offsets[row]` for
  `row ≥ 2`) is modelled by `Option`: `none` means the call raises before
  emitting any write.
- Machine integers are `Nat`; Python's `data & ~ENABLE` on a nonnegative
  `data` clears bit 2 and keeps all other bits, which is
  `data - (data &&& ENABLE)`.
-/

/-- A bus event: a single-byte register write on the two-wire bus, or a
real-time delay in nanoseconds. -/
inductive Ev where
  | write (b : Nat)
  | sleep (ns : Nat)
deriving DecidableEq

namespace LCD1602

/-- Command code `LCD_CLEAR = 0x01`. -/
def LCD_CLEAR : Nat := 0x01

/-- Command code `LCD_ENTRY_MODE = 0x04`. -/
def LCD_ENTRY_MODE : Nat := 0x04

/-- Command code `LCD_DISPLAY_CONTROL = 0x08`. -/
def LCD_DISPLAY_CONTROL : Nat := 0x08

/-- Command code `LCD_FUNCTION_SET = 0x20`. -/
def LCD_FUNCTION_SET : Nat := 0x20

/-- Command code `LCD_SET_DDRAM = 0x80`. -/
def LCD_SET_DDRAM : Nat := 0x80

/-- Flag `LCD_DISPLAY_ON = 0x04`. -/
def LCD_DISPLAY_ON : Nat := 0x04

/-- Flag `LCD_CURSOR_OFF = 0x00`. -/
def LCD_CURSOR_OFF : Nat := 0x00

/-- Flag `LCD_BLINK_OFF = 0x00`. -/
def LCD_BLINK_OFF : Nat := 0x00

/-- Flag `LCD_2LINE = 0x08`. -/
def LCD_2LINE : Nat := 0x08

/-- Flag `LCD_5x8DOTS = 0x00`. -/
def LCD_5x8DOTS : Nat := 0x00

/-- Flag `LCD_BACKLIGHT = 0x08`. -/
def LCD_BACKLIGHT : Nat := 0x08

/-- Enable bit `ENABLE = 0b00000100`. -/
def ENABLE : Nat := 0b00000100

/-- Nanoseconds of `time.sleep(0.0001)` in `_pulse_enable`. -/
def pulseHoldNs : Nat := 100000

/-- Python's `data & ~ENABLE` on a nonnegative `data`: it clears the enable
bit and keeps every other bit.  `data &&& ENABLE` is exactly the enable
bit's contribution to `data`, so subtracting it clears that one bit. -/
def andNotEnable (data : Nat) : Nat := data - (data &&& ENABLE)

/-- `_pulse_enable(data)`: write `data | ENABLE | backlight`, sleep 100 µs,
write `data & ~ENABLE | backlight`, sleep 100 µs. -/
def pulse_enable (bl data : Nat) : List Ev :=
  [Ev.write (data ||| ENABLE ||| bl), Ev.sleep pulseHoldNs,
   Ev.write (andNotEnable data ||| bl), Ev.sleep pulseHoldNs]

/-- `_write_four_bits(data)`: write `data | backlight`, then pulse enable. -/
def write_four_bits (bl data : Nat) : List Ev :=
  Ev.write (data ||| bl) :: pulse_enable bl data

/-- High-nibble transport word of `_write_byte`: `mode | (data & 0xF0)`. -/
def high_bits (data mode : Nat) : Nat := mode ||| (data &&& 0xF0)

/-- Low-nibble transport word of `_write_byte`: `mode | ((data << 4) & 0xF0)`. -/
def low_bits (data mode : Nat) : Nat := mode ||| ((data <<< 4) &&& 0xF0)

/-- `_write_byte(data, mode)`: write the high nibble, then the low nibble. -/
def write_byte (bl data mode : Nat) : List Ev :=
  write_four_bits bl (high_bits data mode) ++ write_four_bits bl (low_bits data mode)

/-- Nanoseconds of `time.sleep(0.002)` at the end of `clear`. -/
def clearDelayNs : Nat := 2000000

/-- `clear()`: write the clear command byte, then sleep 2 ms. -/
def clear (bl : Nat) : List Ev :=
  write_byte bl LCD_CLEAR 0 ++ [Ev.sleep clearDelayNs]

/-- The `row_offsets` list of `set_cursor`. -/
def row_offsets : List Nat := [0x00, 0x40]

/-- The command byte computed by `set_cursor`:
`LCD_SET_DDRAM | (col + row_offsets[row])`.  `none` models the
`IndexError` Python raises when `row` is outside the list. -/
def set_cursor_cmd (col row : Nat) : Option Nat :=
  if h : row < row_offsets.length then
    some (LCD_SET_DDRAM ||| (col + row_offsets.get ⟨row, h⟩))
  else
    none

/-- `set_cursor(col, row)`: issue the set-DDRAM-address command in command
mode; `none` when the row offset lookup raises. -/
def set_cursor (bl col row : Nat) : Option (List Ev) :=
  (set_cursor_cmd col row).map (fun c => write_byte bl c 0)

/-- `print(text, col, row)`: set the cursor, then write each character
code in data mode.  Characters are carried as their full `ord` values. -/
def print (bl : Nat) (text : List Nat) (col row : Nat) : Option (List Ev) :=
  (set_cursor bl col row).map
    (fun sc => sc ++ (text.map (fun ch => write_byte bl ch 1)).flatten)

/-- The bus-event trace of `__init__` after `self.backlight = LCD_BACKLIGHT`:
the 4-bit handshake, function set, display control, clear, entry mode. -/
def initTrace : List Ev :=
  [Ev.sleep 50000000]
    ++ write_four_bits LCD_BACKLIGHT (0x03 <<< 4) ++ [Ev.sleep 5000000]
    ++ write_four_bits LCD_BACKLIGHT (0x03 <<< 4) ++ [Ev.sleep 1000000]
    ++ write_four_bits LCD_BACKLIGHT (0x03 <<< 4)
    ++ write_four_bits LCD_BACKLIGHT (0x02 <<< 4)
    ++ write_byte LCD_BACKLIGHT (LCD_FUNCTION_SET ||| LCD_2LINE ||| LCD_5x8DOTS) 0
    ++ write_byte LCD_BACKLIGHT
        (LCD_DISPLAY_CONTROL ||| LCD_DISPLAY_ON ||| LCD_CURSOR_OFF ||| LCD_BLINK_OFF) 0
    ++ clear LCD_BACKLIGHT
    ++ write_byte LCD_BACKLIGHT (LCD_ENTRY_MODE ||| 0x02) 0
    ++ [Ev.sleep 2000000]

/-- Predicate picking out bus writes whose data nibble is the 8-bit-reset
function-set pattern `0x30` of the power-on handshake. -/
def isResetNibbleWrite : Ev → Bool
  | Ev.write b => b &&& 0xF0 == 0x30
  | Ev.sleep _ => false

/-- A public driver operation, for reasoning about call sequences. -/
inductive Op where
  | clearOp
  | setCursorOp (col row : Nat)
  | printOp (text : List Nat) (col row : Nat)
  | backlightOnOp
  | backlightOffOp
deriving DecidableEq

/-- `true` exactly for the two backlight-setting operations. -/
def Op.isBacklight : Op → Bool
  | Op.backlightOnOp => true
  | Op.backlightOffOp => true
  | _ => false

/-- Run one operation from a stored backlight byte: the new stored byte and
the emitted bus events; `none` when the operation raises. -/
def runOp (bl : Nat) : Op → Option (Nat × List Ev)
  | Op.clearOp => some (bl, clear bl)
  | Op.setCursorOp c r => (set_cursor bl c r).map (fun t => (bl, t))
  | Op.printOp s c r => (print bl s c r).map (fun t => (bl, t))
  | Op.backlightOnOp => some (LCD_BACKLIGHT, [Ev.write LCD_BACKLIGHT])
  | Op.backlightOffOp => some (0x00, [Ev.write 0x00])

/-- Run a sequence of operations, threading the stored backlight byte and
concatenating the emitted events; `none` when any operation raises. -/
def runOps (bl : Nat) : List Op → Option (Nat × List Ev)
  | [] => some (bl, [])
  | op :: ops =>
    match runOp bl op with
    | none => none
    | some (bl2, evs) =>
      match runOps bl2 ops with
      | none => none
      | some (bl3, evs2) => some (bl3, evs ++ evs2)

end LCD1602

namespace WeighingMachine

/-- One entry of `self.sensors`: the raw reading its HX711 produced for
this cycle (`none` models `get_raw_data_mean()` returning `False`),
together with the calibration constants.  Readings and constants are
modelled as rationals. -/
structure Sensor where
  reading : Option ℚ
  offset : ℚ
  scale : ℚ
deriving DecidableEq

/-- The calibrated weight the loop body computes for one sensor:
`(raw_reading - offset) / scale` on success, `0.0` when the raw read
returned `False`. -/
def sensorWeight (s : Sensor) : ℚ :=
  match s.reading with
  | some raw => (raw - s.offset) / s.scale
  | none => 0

/-- The loop body of `read_weight`: on a successful read, append the
calibrated weight and add it to the running total; on `False`, append
`0.0` and leave the total unchanged. -/
def readStep (acc : ℚ × List ℚ) (s : Sensor) : ℚ × List ℚ :=
  match s.reading with
  | some raw =>
    (acc.1 + (raw - s.offset) / s.scale, acc.2 ++ [(raw - s.offset) / s.scale])
  | none => (acc.1, acc.2 ++ [0])

/-- `read_weight()`: fold the loop body over the sensors, starting from
`total_weight = 0.0` and `sensor_weights = []`; returns
`(total_weight, sensor_weights)`. -/
def read_weight (sensors : List Sensor) : ℚ × List ℚ :=
  sensors.foldl readStep (0, [])

/-- Ten to the power `d`, used as the fixed-point scaling factor. -/
def pow10 : Nat → Nat
  | 0 => 1
  | n + 1 => 10 * pow10 n

/-- Round a rational to the nearest integer, ties to even — the rounding
Python's fixed-point float formatting applies. -/
def roundHalfEven (q : ℚ) : ℤ :=
  let f : ℤ := ⌊q⌋
  let r : ℚ := q - (f : ℚ)
  if r < 1 / 2 then f
  else if 1 / 2 < r then f + 1
  else if f % 2 = 0 then f else f + 1

/-- Character for a single decimal digit. -/
def digitChar (n : Nat) : Char := Char.ofNat (48 + n)

/-- Decimal digits of `n`, most significant first; the first argument is
structural fuel (any fuel `> log10 n` gives all digits). -/
def natDigits : Nat → Nat → List Char
  | 0, _ => []
  | fuel + 1, n =>
    if n < 10 then [digitChar n]
    else natDigits fuel (n / 10) ++ [digitChar (n % 10)]

/-- Decimal string of a natural number. -/
def natStr (n : Nat) : String := ⟨natDigits (n + 1) n⟩

/-- Left-pad a digit list with zeros to width `d`. -/
def padZeros (d : Nat) (s : List Char) : List Char :=
  List.replicate (d - s.length) '0' ++ s

/-- Fixed-point rendering of a rational with `d` digits after the decimal
point, modelling the Python format specifier `.` `d` `f` used by
`format_weight_display`. -/
def formatFixed (q : ℚ) (d : Nat) : String :=
  let n : ℤ := roundHalfEven (q * (pow10 d : ℚ))
  let m : Nat := n.natAbs
  let sign : String := if n < 0 then "-" else ""
  if d = 0 then sign ++ natStr m
  else
    sign ++ natStr (m / pow10 d) ++ "." ++ ⟨padZeros d (natDigits (m % pow10 d + 1) (m % pow10 d))⟩

/-- `format_weight_display(weight_grams)`: clamp negatives to zero, then
render grams with one decimal (suffix `g`) below 1000, otherwise
kilograms with three decimals (suffix `kg`). -/
def format_weight_display (w : ℚ) : String :=
  let w2 := if w < 0 then 0 else w
  if w2 < 1000 then formatFixed w2 1 ++ "g"
  else formatFixed (w2 / 1000) 3 ++ "kg"

/-- The display formatting exactly as the claim words it: negative weights
render as the literal string `0.0g`; weights below 1000 render as grams
with one decimal and suffix `g`; weights at or above 1000 render as
kilograms with three decimals and suffix `kg`. -/
def formatWeightClaimed (w : ℚ) : String :=
  if w < 0 then "0.0g"
  else if w < 1000 then formatFixed w 1 ++ "g"
  else formatFixed (w / 1000) 3 ++ "kg"

end WeighingMachine

/-- Evaluation of `set_cursor_cmd` on every in-range position: the command
byte is the DDRAM base `0x80` plus `row * 0x40 + col`, equivalently
`0x80` OR-ed with that address, and masking the command bit back off
recovers the address exactly. -/
theorem set_cursor_cmd_eval : ∀ col < 16, ∀ row < 2,
    LCD1602.set_cursor_cmd col row = some (0x80 ||| (row * 0x40 + col))
    ∧ 0x80 ||| (row * 0x40 + col) = 0x80 + (row * 0x40 + col)
    ∧ (0x80 ||| (row * 0x40 + col)) &&& 0x7F = row * 0x40 + col := by
  decide

/-- C1: for every valid cursor position with `col ∈ [0,15]` and
`row ∈ [0,1]`, `set_cursor` issues a set-DDRAM-address command whose
address field equals `row * 0x40 + col` exactly: the command byte is
`0x80` OR-ed with (equivalently, added to) that address, and its low
seven bits are that address. -/
theorem set_cursor_valid_ddram_address (bl col row : Nat)
    (hc : col < 16) (hr : row < 2) :
    LCD1602.set_cursor bl col row
      = some (LCD1602.write_byte bl (0x80 ||| (row * 0x40 + col)) 0)
    ∧ 0x80 ||| (row * 0x40 + col) = 0x80 + (row * 0x40 + col)
    ∧ (0x80 ||| (row * 0x40 + col)) &&& 0x7F = row * 0x40 + col := by
  obtain ⟨h1, h2, h3⟩ := set_cursor_cmd_eval col hc row hr
  exact ⟨by rw [LCD1602.set_cursor, h1]; rfl, h2, h3⟩

/-- Witness for C1 at `col = 5`, `row = 1`. -/
theorem set_cursor_valid_ddram_address_witness :
    LCD1602.set_cursor 8 5 1
      = some (LCD1602.write_byte 8 (0x80 ||| (1 * 0x40 + 5)) 0)
    ∧ 0x80 ||| (1 * 0x40 + 5) = 0x80 + (1 * 0x40 + 5)
    ∧ (0x80 ||| (1 * 0x40 + 5)) &&& 0x7F = 1 * 0x40 + 5 :=
  set_cursor_valid_ddram_address 8 5 1 (by decide) (by decide)

set_option maxRecDepth 4096 in
/-- C2: the byte-to-nibble decomposition of `_write_byte` loses no bits:
for every byte, OR-ing the high-nibble word with the low-nibble word
shifted back down reconstructs the byte. -/
theorem nibble_split_roundtrip : ∀ b < 256,
    LCD1602.high_bits b 0 ||| (LCD1602.low_bits b 0 >>> 4) = b := by
  decide

/-- Witness for C2 at `b = 0xA7`. -/
theorem nibble_split_roundtrip_witness :
    LCD1602.high_bits 0xA7 0 ||| (LCD1602.low_bits 0xA7 0 >>> 4) = 0xA7 :=
  nibble_split_roundtrip 0xA7 (by decide)

/-- A word with a clear enable bit contributes nothing under the enable
mask. -/
theorem and_enable_of_testBit {d : Nat} (hd : d.testBit 2 = false) :
    d &&& LCD1602.ENABLE = 0 := by
  have h := Nat.and_two_pow d 2
  rw [hd] at h
  simpa [LCD1602.ENABLE] using h

/-- Clearing the enable bit of a word whose enable bit is already clear is
the identity. -/
theorem andNotEnable_of_testBit {d : Nat} (hd : d.testBit 2 = false) :
    LCD1602.andNotEnable d = d := by
  rw [LCD1602.andNotEnable, and_enable_of_testBit hd, Nat.sub_zero]

/-- Bits 1 to 3 of any nibble transport word `mode ||| (x &&& 0xF0)` are
clear: the mode bit occupies bit 0 and the data nibble bits 4 to 7. -/
theorem masked_word_testBit (x mode i : Nat) (hm : mode < 2)
    (h1 : 1 ≤ i) (h4 : i ≤ 3) :
    (mode ||| (x &&& 0xF0)).testBit i = false := by
  have hmode : mode.testBit i = false := by
    refine Nat.testBit_eq_false_of_lt (lt_of_lt_of_le hm ?_)
    calc (2 : Nat) = 2 ^ 1 := rfl
      _ ≤ 2 ^ i := Nat.pow_le_pow_right (by norm_num) h1
  have hmask : Nat.testBit 0xF0 i = false := by interval_cases i <;> decide
  rw [Nat.testBit_lor, Nat.testBit_land, hmode, hmask]
  simp

/-- Bits 1 to 3 of a high-nibble transport word are clear. -/
theorem high_bits_testBit (data mode i : Nat) (hm : mode < 2)
    (h1 : 1 ≤ i) (h4 : i ≤ 3) :
    (LCD1602.high_bits data mode).testBit i = false :=
  masked_word_testBit data mode i hm h1 h4

/-- Bits 1 to 3 of a low-nibble transport word are clear. -/
theorem low_bits_testBit (data mode i : Nat) (hm : mode < 2)
    (h1 : 1 ≤ i) (h4 : i ≤ 3) :
    (LCD1602.low_bits data mode).testBit i = false :=
  masked_word_testBit (data <<< 4) mode i hm h1 h4

/-- C4: a nibble write emits exactly three bus writes in order — the data
word with enable low, the same word with the enable bit set (held for the
pulse time), then the word with enable cleared again (held for the same
time) — each OR-ed with the stored backlight byte (OR-ing it again is a
no-op), and the hold time meets the controller's 450 ns minimum enable
pulse width. -/
theorem nibble_write_enable_pulse (bl d : Nat)
    (hd : d.testBit 2 = false) (hbl : bl.testBit 2 = false) :
    LCD1602.write_four_bits bl d =
      [Ev.write (d ||| bl), Ev.write (d ||| LCD1602.ENABLE ||| bl),
       Ev.sleep LCD1602.pulseHoldNs, Ev.write (d ||| bl),
       Ev.sleep LCD1602.pulseHoldNs]
    ∧ (d ||| bl).testBit 2 = false
    ∧ (d ||| LCD1602.ENABLE ||| bl).testBit 2 = true
    ∧ (d ||| bl) ||| bl = d ||| bl
    ∧ (d ||| LCD1602.ENABLE ||| bl) ||| bl = d ||| LCD1602.ENABLE ||| bl
    ∧ 450 ≤ LCD1602.pulseHoldNs := by
  refine ⟨?_, ?_, ?_, ?_, ?_, by decide⟩
  · rw [LCD1602.write_four_bits, LCD1602.pulse_enable, andNotEnable_of_testBit hd]
  · rw [Nat.testBit_lor, hd, hbl]
    rfl
  · rw [Nat.testBit_lor, Nat.testBit_lor, hd, hbl]
    rfl
  · rw [Nat.or_assoc, Nat.or_self]
  · rw [Nat.or_assoc, Nat.or_self]

/-- Witness for C4 at the handshake nibble `0x30` with backlight on. -/
theorem nibble_write_enable_pulse_witness :
    LCD1602.write_four_bits 8 0x30 =
      [Ev.write (0x30 ||| 8), Ev.write (0x30 ||| LCD1602.ENABLE ||| 8),
       Ev.sleep LCD1602.pulseHoldNs, Ev.write (0x30 ||| 8),
       Ev.sleep LCD1602.pulseHoldNs]
    ∧ ((0x30 : Nat) ||| 8).testBit 2 = false
    ∧ ((0x30 : Nat) ||| LCD1602.ENABLE ||| 8).testBit 2 = true
    ∧ ((0x30 : Nat) ||| 8) ||| 8 = 0x30 ||| 8
    ∧ ((0x30 : Nat) ||| LCD1602.ENABLE ||| 8) ||| 8 = 0x30 ||| LCD1602.ENABLE ||| 8
    ∧ 450 ≤ LCD1602.pulseHoldNs :=
  nibble_write_enable_pulse 8 0x30 (by decide) (by decide)

/-- For any in-range row, `set_cursor` succeeds and issues the command for
DDRAM address `0x40 * row + col`, whatever `col` is. -/
theorem set_cursor_of_row_lt (bl col row : Nat) (hr : row < 2) :
    LCD1602.set_cursor bl col row
      = some (LCD1602.write_byte bl (0x80 ||| (0x40 * row + col)) 0) := by
  interval_cases row <;>
    simp [LCD1602.set_cursor, LCD1602.set_cursor_cmd, LCD1602.row_offsets,
      LCD1602.LCD_SET_DDRAM, Nat.add_comm]

/-- C5: the initialization trace starts with the mandated handshake —
three `0x30` function-set nibble writes separated by settle delays of
5 ms (≥ 4.1 ms) and 1 ms (≥ 100 µs, strictly shorter than the first),
the third write followed with no extra delay by the single `0x20` nibble
write — and `0x30` carries the function-set and 8-bit-interface bits
while `0x20` carries function-set with the 8-bit bit clear (4-bit mode);
exactly nine bus writes in the whole trace (the three handshake nibble
writes, three bus writes each) carry the `0x30` data nibble. -/
theorem init_handshake :
    (∃ rest,
      LCD1602.initTrace =
        [Ev.sleep 50000000]
          ++ LCD1602.write_four_bits LCD1602.LCD_BACKLIGHT (0x03 <<< 4)
          ++ [Ev.sleep 5000000]
          ++ LCD1602.write_four_bits LCD1602.LCD_BACKLIGHT (0x03 <<< 4)
          ++ [Ev.sleep 1000000]
          ++ LCD1602.write_four_bits LCD1602.LCD_BACKLIGHT (0x03 <<< 4)
          ++ LCD1602.write_four_bits LCD1602.LCD_BACKLIGHT (0x02 <<< 4)
          ++ rest)
    ∧ 4100000 ≤ 5000000 ∧ 100000 ≤ 1000000 ∧ 1000000 < 5000000
    ∧ (0x03 <<< 4) &&& LCD1602.LCD_FUNCTION_SET = LCD1602.LCD_FUNCTION_SET
    ∧ (0x03 <<< 4) &&& 0x10 = 0x10
    ∧ (0x02 <<< 4) &&& LCD1602.LCD_FUNCTION_SET = LCD1602.LCD_FUNCTION_SET
    ∧ (0x02 <<< 4) &&& 0x10 = 0
    ∧ (LCD1602.initTrace.filter LCD1602.isResetNibbleWrite).length = 9 :=
  ⟨⟨LCD1602.write_byte LCD1602.LCD_BACKLIGHT
        (LCD1602.LCD_FUNCTION_SET ||| LCD1602.LCD_2LINE ||| LCD1602.LCD_5x8DOTS) 0
      ++ LCD1602.write_byte LCD1602.LCD_BACKLIGHT
        (LCD1602.LCD_DISPLAY_CONTROL ||| LCD1602.LCD_DISPLAY_ON
          ||| LCD1602.LCD_CURSOR_OFF ||| LCD1602.LCD_BLINK_OFF) 0
      ++ LCD1602.clear LCD1602.LCD_BACKLIGHT
      ++ LCD1602.write_byte LCD1602.LCD_BACKLIGHT (LCD1602.LCD_ENTRY_MODE ||| 0x02) 0
      ++ [Ev.sleep 2000000], by decide⟩,
    by decide, by decide, by decide, by decide, by decide, by decide, by decide,
    by decide⟩

/-- C6 counterexample: at `col = 16 > 15`, `row = 0`, `set_cursor` does
not signal anything — it silently succeeds and issues the set-DDRAM
command `0x90` for the out-of-range address 16. -/
theorem set_cursor_col16_counterexample :
    LCD1602.set_cursor 8 16 0 = some (LCD1602.write_byte 8 0x90 0) := by
  decide

/-- C6 amended: only `row > 1` is signalled (the `row_offsets` lookup
raises before any write); for `row ≤ 1` the call succeeds for every
`col`, including `col > 15`, issuing the set-DDRAM command for address
`0x40 * row + col` — neither signalled nor clamped nor wrapped. -/
theorem set_cursor_out_of_range (bl col row : Nat) :
    (2 ≤ row → LCD1602.set_cursor bl col row = none)
    ∧ (row < 2 → LCD1602.set_cursor bl col row
        = some (LCD1602.write_byte bl (0x80 ||| (0x40 * row + col)) 0)) := by
  constructor
  · intro h2
    rw [LCD1602.set_cursor, LCD1602.set_cursor_cmd,
      dif_neg (by simp [LCD1602.row_offsets]; omega)]
    rfl
  · exact set_cursor_of_row_lt bl col row

/-- Witness for the amended C6 at `row = 2` (signalled) and at
`col = 16`, `row = 1` (silently issued). -/
theorem set_cursor_out_of_range_witness :
    LCD1602.set_cursor 8 20 2 = none
    ∧ LCD1602.set_cursor 8 16 1
        = some (LCD1602.write_byte 8 (0x80 ||| (0x40 * 1 + 16)) 0) :=
  ⟨(set_cursor_out_of_range 8 20 2).1 (by decide),
    (set_cursor_out_of_range 8 16 1).2 (by decide)⟩

/-- C7: `clear` writes the clear-display command and then sleeps 2 ms —
at least the documented 1.52 ms execution time — as its final event
before returning, and two sequential `clear` calls each carry their own
full trailing delay. -/
theorem clear_enforces_delay (bl : Nat) :
    LCD1602.clear bl
      = LCD1602.write_byte bl LCD1602.LCD_CLEAR 0 ++ [Ev.sleep LCD1602.clearDelayNs]
    ∧ 1520000 ≤ LCD1602.clearDelayNs
    ∧ (LCD1602.clear bl).getLast? = some (Ev.sleep LCD1602.clearDelayNs)
    ∧ LCD1602.runOps bl [LCD1602.Op.clearOp, LCD1602.Op.clearOp]
        = some (bl, LCD1602.clear bl ++ LCD1602.clear bl) := by
  refine ⟨rfl, by decide, ?_, ?_⟩
  · rw [LCD1602.clear]
    exact List.getLast?_concat _
  · simp [LCD1602.runOps, LCD1602.runOp]

/-- The three bus writes of a nibble write, characterized. -/
theorem write_mem_write_four_bits {bl d b : Nat}
    (h : Ev.write b ∈ LCD1602.write_four_bits bl d) :
    b = d ||| bl ∨ b = d ||| LCD1602.ENABLE ||| bl
      ∨ b = LCD1602.andNotEnable d ||| bl := by
  simp only [LCD1602.write_four_bits, LCD1602.pulse_enable, List.mem_cons,
    List.mem_singleton, Ev.write.injEq, reduceCtorEq, or_false] at h
  tauto

/-- Every bus write of a nibble write whose data word has bits 2 and 3
clear carries exactly the stored backlight bit. -/
theorem write_four_bits_backlight {bl d b : Nat}
    (hd2 : d.testBit 2 = false) (hd3 : d.testBit 3 = false)
    (h : Ev.write b ∈ LCD1602.write_four_bits bl d) :
    b.testBit 3 = bl.testBit 3 := by
  have he : LCD1602.ENABLE.testBit 3 = false := by decide
  rcases write_mem_write_four_bits h with h1 | h1 | h1 <;> subst h1
  · rw [Nat.testBit_lor, hd3, Bool.false_or]
  · rw [Nat.testBit_lor, Nat.testBit_lor, hd3, he, Bool.false_or, Bool.false_or]
  · rw [andNotEnable_of_testBit hd2, Nat.testBit_lor, hd3, Bool.false_or]

/-- Every bus write of a byte write in command or data mode carries
exactly the stored backlight bit. -/
theorem write_byte_backlight {bl data mode b : Nat} (hm : mode < 2)
    (h : Ev.write b ∈ LCD1602.write_byte bl data mode) :
    b.testBit 3 = bl.testBit 3 := by
  rw [LCD1602.write_byte, List.mem_append] at h
  rcases h with h | h
  · exact write_four_bits_backlight
      (high_bits_testBit data mode 2 hm (by decide) (by decide))
      (high_bits_testBit data mode 3 hm (by decide) (by decide)) h
  · exact write_four_bits_backlight
      (low_bits_testBit data mode 2 hm (by decide) (by decide))
      (low_bits_testBit data mode 3 hm (by decide) (by decide)) h

/-- Every bus write of `clear` carries exactly the stored backlight bit. -/
theorem clear_backlight {bl b : Nat} (h : Ev.write b ∈ LCD1602.clear bl) :
    b.testBit 3 = bl.testBit 3 := by
  rw [LCD1602.clear, List.mem_append] at h
  rcases h with h | h
  · exact write_byte_backlight (by decide) h
  · simp at h

/-- Every bus write of a successful `set_cursor` carries exactly the
stored backlight bit. -/
theorem set_cursor_backlight {bl col row b : Nat} {tr : List Ev}
    (hc : LCD1602.set_cursor bl col row = some tr)
    (h : Ev.write b ∈ tr) : b.testBit 3 = bl.testBit 3 := by
  cases hco : LCD1602.set_cursor_cmd col row with
  | none =>
    rw [LCD1602.set_cursor, hco] at hc
    exact absurd hc (by simp)
  | some c =>
    rw [LCD1602.set_cursor, hco] at hc
    have htr : tr = LCD1602.write_byte bl c 0 := by simpa using hc.symm
    subst htr
    exact write_byte_backlight (by decide) h

/-- Every bus write of a successful `print` carries exactly the stored
backlight bit. -/
theorem print_backlight {bl col row b : Nat} {text : List Nat} {tr : List Ev}
    (hp : LCD1602.print bl text col row = some tr)
    (h : Ev.write b ∈ tr) : b.testBit 3 = bl.testBit 3 := by
  cases hsc : LCD1602.set_cursor bl col row with
  | none =>
    rw [LCD1602.print, hsc] at hp
    exact absurd hp (by simp)
  | some sc =>
    rw [LCD1602.print, hsc] at hp
    have htr : tr = sc ++ (text.map (fun ch => LCD1602.write_byte bl ch 1)).flatten := by
      simpa using hp.symm
    subst htr
    rcases List.mem_append.mp h with h1 | h1
    · exact set_cursor_backlight hsc h1
    · obtain ⟨l, hl, hbl⟩ := List.mem_flatten.mp h1
      obtain ⟨ch, _, rfl⟩ := List.mem_map.mp hl
      exact write_byte_backlight (by decide) hbl

/-- A non-backlight operation leaves the stored backlight byte unchanged,
and every bus write it emits carries exactly the stored backlight bit. -/
theorem runOp_backlight {bl bl2 : Nat} {op : LCD1602.Op} {evs : List Ev}
    (hop : op.isBacklight = false)
    (h : LCD1602.runOp bl op = some (bl2, evs)) :
    bl2 = bl ∧ ∀ b, Ev.write b ∈ evs → b.testBit 3 = bl.testBit 3 := by
  cases op with
  | clearOp =>
    simp only [LCD1602.runOp, Option.some.injEq, Prod.mk.injEq] at h
    obtain ⟨h1, h2⟩ := h
    exact ⟨h1.symm, fun b hb => clear_backlight (h2 ▸ hb)⟩
  | setCursorOp c r =>
    cases hsc : LCD1602.set_cursor bl c r with
    | none => simp [LCD1602.runOp, hsc] at h
    | some tr =>
      simp only [LCD1602.runOp, hsc, Option.map_some', Option.some.injEq,
        Prod.mk.injEq] at h
      obtain ⟨h1, h2⟩ := h
      exact ⟨h1.symm, fun b hb => set_cursor_backlight hsc (h2 ▸ hb)⟩
  | printOp s c r =>
    cases hpr : LCD1602.print bl s c r with
    | none => simp [LCD1602.runOp, hpr] at h
    | some tr =>
      simp only [LCD1602.runOp, hpr, Option.map_some', Option.some.injEq,
        Prod.mk.injEq] at h
      obtain ⟨h1, h2⟩ := h
      exact ⟨h1.symm, fun b hb => print_backlight hpr (h2 ▸ hb)⟩
  | backlightOnOp => exact absurd hop (by simp [LCD1602.Op.isBacklight])
  | backlightOffOp => exact absurd hop (by simp [LCD1602.Op.isBacklight])

/-- A successful sequence of non-backlight operations leaves the stored
backlight byte unchanged, and every bus write it emits carries exactly
the stored backlight bit. -/
theorem runOps_backlight (ops : List LCD1602.Op) :
    ∀ (bl bl2 : Nat) (tr : List Ev),
    (∀ op ∈ ops, op.isBacklight = false) →
    LCD1602.runOps bl ops = some (bl2, tr) →
    bl2 = bl ∧ ∀ b, Ev.write b ∈ tr → b.testBit 3 = bl.testBit 3 := by
  induction ops with
  | nil =>
    intro bl bl2 tr _ h
    simp only [LCD1602.runOps, Option.some.injEq, Prod.mk.injEq] at h
    obtain ⟨h1, h2⟩ := h
    subst h1
    refine ⟨rfl, fun b hb => absurd (h2 ▸ hb) (by simp)⟩
  | cons op ops ih =>
    intro bl bl2 tr hops h
    rw [LCD1602.runOps] at h
    cases h1 : LCD1602.runOp bl op with
    | none =>
      simp only [h1] at h
      exact Option.noConfusion h
    | some pe =>
      obtain ⟨bl3, evs⟩ := pe
      simp only [h1] at h
      cases h2 : LCD1602.runOps bl3 ops with
      | none =>
        simp only [h2] at h
        exact Option.noConfusion h
      | some pe2 =>
        obtain ⟨bl4, evs2⟩ := pe2
        simp only [h2, Option.some.injEq, Prod.mk.injEq] at h
        obtain ⟨hbl4, hevs⟩ := h
        have hop := runOp_backlight (hops op (by simp)) h1
        have hops2 : ∀ o ∈ ops, o.isBacklight = false :=
          fun o ho => hops o (by simp [ho])
        have hrec := ih bl3 bl4 evs2 hops2 h2
        refine ⟨by rw [← hbl4, hrec.1, hop.1], ?_⟩
        intro b hb
        rw [← hevs] at hb
        rcases List.mem_append.mp hb with hb1 | hb1
        · exact hop.2 b hb1
        · exact (hrec.2 b hb1).trans (by rw [hop.1])

/-- C3: after `backlight_on`, every bus write issued by that call and by
any following sequence of `clear`, `set_cursor` and `print` calls has the
backlight bit (bit 3) set; after `backlight_off`, every such write has it
clear — an unrelated operation can never overturn the last backlight
setting. -/
theorem backlight_bit_in_every_write (ops : List LCD1602.Op)
    (bl bl2 : Nat) (tr : List Ev) (b : Nat)
    (hops : ∀ op ∈ ops, op.isBacklight = false) :
    (LCD1602.runOps bl (LCD1602.Op.backlightOnOp :: ops) = some (bl2, tr) →
      Ev.write b ∈ tr → b.testBit 3 = true)
    ∧ (LCD1602.runOps bl (LCD1602.Op.backlightOffOp :: ops) = some (bl2, tr) →
      Ev.write b ∈ tr → b.testBit 3 = false) := by
  constructor
  · intro h hb
    rw [LCD1602.runOps] at h
    have hon : LCD1602.runOp bl LCD1602.Op.backlightOnOp
        = some (LCD1602.LCD_BACKLIGHT, [Ev.write LCD1602.LCD_BACKLIGHT]) := rfl
    cases h2 : LCD1602.runOps LCD1602.LCD_BACKLIGHT ops with
    | none =>
      simp only [hon, h2] at h
      exact Option.noConfusion h
    | some pe =>
      obtain ⟨bl3, evs2⟩ := pe
      simp only [hon, h2, Option.some.injEq, Prod.mk.injEq] at h
      obtain ⟨hbl, hevs⟩ := h
      rw [← hevs] at hb
      rcases List.mem_append.mp hb with hb1 | hb1
      · have : b = LCD1602.LCD_BACKLIGHT := by simpa using hb1
        subst this
        decide
      · have := (runOps_backlight ops LCD1602.LCD_BACKLIGHT bl3 evs2 hops h2).2 b hb1
        rw [this]
        decide
  · intro h hb
    rw [LCD1602.runOps] at h
    have hoff : LCD1602.runOp bl LCD1602.Op.backlightOffOp
        = some (0x00, [Ev.write 0x00]) := rfl
    cases h2 : LCD1602.runOps 0x00 ops with
    | none =>
      simp only [hoff, h2] at h
      exact Option.noConfusion h
    | some pe =>
      obtain ⟨bl3, evs2⟩ := pe
      simp only [hoff, h2, Option.some.injEq, Prod.mk.injEq] at h
      obtain ⟨hbl, hevs⟩ := h
      rw [← hevs] at hb
      rcases List.mem_append.mp hb with hb1 | hb1
      · have : b = 0x00 := by simpa using hb1
        subst this
        decide
      · have := (runOps_backlight ops 0x00 bl3 evs2 hops h2).2 b hb1
        rw [this]
        decide

/-- Witness for C3: in the session `backlight_on(); clear()` started with
the backlight off, the bus write `0x1C` emitted by the `clear` has the
backlight bit set. -/
theorem backlight_bit_in_every_write_witness : (0x1C : Nat).testBit 3 = true :=
  (backlight_bit_in_every_write [LCD1602.Op.clearOp] 0 LCD1602.LCD_BACKLIGHT
      (Ev.write LCD1602.LCD_BACKLIGHT :: LCD1602.clear LCD1602.LCD_BACKLIGHT)
      0x1C (by decide)).1 (by decide) (by decide)

/-- Every bus write of a byte write in data mode carries the data-mode
(register-select) bit. -/
theorem write_byte_data_mode_bit {bl data b : Nat}
    (h : Ev.write b ∈ LCD1602.write_byte bl data 1) : b.testBit 0 = true := by
  have h1 : ∀ x : Nat, ((1 : Nat) ||| x).testBit 0 = true := by
    intro x
    rw [Nat.testBit_lor, show Nat.testBit 1 0 = true from rfl, Bool.true_or]
  have key : ∀ d : Nat, d.testBit 0 = true → d.testBit 2 = false →
      ∀ w : Nat, Ev.write w ∈ LCD1602.write_four_bits bl d → w.testBit 0 = true := by
    intro d hd0 hd2 w hw
    rcases write_mem_write_four_bits hw with h3 | h3 | h3 <;> subst h3
    · rw [Nat.testBit_lor, hd0, Bool.true_or]
    · rw [Nat.testBit_lor, Nat.testBit_lor, hd0, Bool.true_or, Bool.true_or]
    · rw [andNotEnable_of_testBit hd2, Nat.testBit_lor, hd0, Bool.true_or]
  rw [LCD1602.write_byte, List.mem_append] at h
  rcases h with h | h
  · exact key _ (h1 (data &&& 0xF0))
      (masked_word_testBit data 1 2 (by decide) (by decide) (by decide)) b h
  · exact key _ (h1 ((data <<< 4) &&& 0xF0))
      (masked_word_testBit (data <<< 4) 1 2 (by decide) (by decide) (by decide)) b h

/-- C8 counterexample: for the character U+20AC (code 8364), which no
HD44780 glyph set contains, `print` does not fail — it succeeds and
transmits nibble writes derived from the character's code (the bus write
`0xA9` is `0xA0`, the masked high nibble of 8364, OR-ed with the data
bit and the backlight bit). -/
theorem print_unsupported_char_counterexample :
    (LCD1602.print 8 [8364] 0 0).isSome = true
    ∧ Ev.write 0xA9 ∈ (LCD1602.print 8 [8364] 0 0).getD [] :=
  ⟨by decide, by decide⟩

/-- C8 amended: `print` performs no glyph validation at all — for every
character list and every in-range row it succeeds, emitting the cursor
command followed by each character's code written in data mode (the
nibble masks silently truncate codes above 8 bits), and every bus write
of a data-mode character write carries the data-mode bit. -/
theorem print_transmits_unvalidated (bl : Nat) (text : List Nat)
    (col row ch b : Nat) (hr : row < 2) :
    LCD1602.print bl text col row
      = some (LCD1602.write_byte bl (0x80 ||| (0x40 * row + col)) 0
          ++ (text.map (fun c => LCD1602.write_byte bl c 1)).flatten)
    ∧ (Ev.write b ∈ LCD1602.write_byte bl ch 1 → b.testBit 0 = true) := by
  refine ⟨?_, fun hb => write_byte_data_mode_bit hb⟩
  rw [LCD1602.print, set_cursor_of_row_lt bl col row hr]
  rfl

/-- Witness for the amended C8: printing `H` (code 72) at `(0, 1)`
succeeds, and its data-mode bus write `0x4D` carries the data-mode bit. -/
theorem print_transmits_unvalidated_witness :
    (LCD1602.print 8 [72] 0 1).isSome = true
    ∧ (0x4D : Nat).testBit 0 = true := by
  have h := print_transmits_unvalidated 8 [72] 0 1 72 0x4D (by decide)
  exact ⟨by rw [h.1]; rfl, h.2 (by decide)⟩

/-- The fold of `read_weight` from an arbitrary accumulator: the total
grows by the sum of the per-sensor weights and the list is extended by
exactly those weights. -/
theorem read_weight_foldl (sensors : List WeighingMachine.Sensor) :
    ∀ (t : ℚ) (l : List ℚ),
      sensors.foldl WeighingMachine.readStep (t, l)
        = (t + (sensors.map WeighingMachine.sensorWeight).sum,
            l ++ sensors.map WeighingMachine.sensorWeight) := by
  induction sensors with
  | nil =>
    intro t l
    simp
  | cons s ss ih =>
    intro t l
    rw [List.foldl_cons]
    cases hr : s.reading with
    | none =>
      have hstep : WeighingMachine.readStep (t, l) s = (t, l ++ [0]) := by
        simp [WeighingMachine.readStep, hr]
      have hw : WeighingMachine.sensorWeight s = 0 := by
        simp [WeighingMachine.sensorWeight, hr]
      rw [hstep, ih]
      simp [hw]
    | some raw =>
      have hstep : WeighingMachine.readStep (t, l) s
          = (t + (raw - s.offset) / s.scale, l ++ [(raw - s.offset) / s.scale]) := by
        simp [WeighingMachine.readStep, hr]
      have hw : WeighingMachine.sensorWeight s = (raw - s.offset) / s.scale := by
        simp [WeighingMachine.sensorWeight, hr]
      rw [hstep, ih]
      simp [hw, add_assoc]

/-- C9: a sensor whose raw read failed contributes exactly `0.0`: its
per-sensor entry is zero, the per-sensor list is the pointwise calibrated
weights, and the returned total is always the sum of the per-sensor list
(no error is raised for failed sensors — `read_weight` is total). -/
theorem read_weight_failed_sensor_zero (sensors : List WeighingMachine.Sensor)
    (s : WeighingMachine.Sensor) (hs : s ∈ sensors) (hn : s.reading = none) :
    (WeighingMachine.read_weight sensors).1
        = ((WeighingMachine.read_weight sensors).2).sum
    ∧ (WeighingMachine.read_weight sensors).2
        = sensors.map WeighingMachine.sensorWeight
    ∧ WeighingMachine.sensorWeight s = 0
    ∧ WeighingMachine.sensorWeight s ∈ (WeighingMachine.read_weight sensors).2 := by
  have h := read_weight_foldl sensors 0 []
  refine ⟨?_, ?_, by simp [WeighingMachine.sensorWeight, hn], ?_⟩
  · rw [WeighingMachine.read_weight, h]
    simp
  · rw [WeighingMachine.read_weight, h]
    simp
  · rw [WeighingMachine.read_weight, h]
    simpa using List.mem_map_of_mem WeighingMachine.sensorWeight hs

/-- Witness for C9 on a two-sensor list whose second raw read failed. -/
theorem read_weight_failed_sensor_zero_witness :
    (WeighingMachine.read_weight [⟨some 100, 10, 2⟩, ⟨none, 5, 3⟩]).1
        = ((WeighingMachine.read_weight [⟨some 100, 10, 2⟩, ⟨none, 5, 3⟩]).2).sum
    ∧ (WeighingMachine.read_weight [⟨some 100, 10, 2⟩, ⟨none, 5, 3⟩]).2
        = [WeighingMachine.Sensor.mk (some 100) 10 2,
            WeighingMachine.Sensor.mk none 5 3].map WeighingMachine.sensorWeight
    ∧ WeighingMachine.sensorWeight ⟨none, 5, 3⟩ = 0
    ∧ WeighingMachine.sensorWeight ⟨none, 5, 3⟩
        ∈ (WeighingMachine.read_weight [⟨some 100, 10, 2⟩, ⟨none, 5, 3⟩]).2 :=
  read_weight_failed_sensor_zero [⟨some 100, 10, 2⟩, ⟨none, 5, 3⟩] ⟨none, 5, 3⟩
    (List.mem_cons_of_mem _ (List.mem_cons_self _ _)) rfl

/-- Rounding zero gives zero. -/
theorem roundHalfEven_zero : WeighingMachine.roundHalfEven 0 = 0 := by
  simp only [WeighingMachine.roundHalfEven, Int.floor_zero, Int.cast_zero, sub_zero]
  norm_num

/-- Zero grams renders as the literal string `0.0`. -/
theorem formatFixed_zero_one : WeighingMachine.formatFixed 0 1 = "0.0" := by
  have h0 : WeighingMachine.roundHalfEven (0 * (WeighingMachine.pow10 1 : ℚ)) = 0 := by
    rw [zero_mul]
    exact roundHalfEven_zero
  simp only [WeighingMachine.formatFixed, h0]
  decide

/-- C10: `format_weight_display` agrees everywhere with the claim's
description — negative weights render as `0.0g`, weights under 1000 g
render as grams with one decimal and suffix `g`, and weights of 1000 g
or more render as kilograms with three decimals and suffix `kg`. -/
theorem format_weight_display_spec (w : ℚ) :
    WeighingMachine.format_weight_display w = WeighingMachine.formatWeightClaimed w := by
  by_cases h0 : w < 0
  · simp only [WeighingMachine.format_weight_display,
      WeighingMachine.formatWeightClaimed, if_pos h0]
    rw [if_pos (by norm_num : (0 : ℚ) < 1000), formatFixed_zero_one]
    rfl
  · simp only [WeighingMachine.format_weight_display,
      WeighingMachine.formatWeightClaimed, if_neg h0]
